import Mathlib

/-!
# Verification of the x11rb-async `RustConnection` request/reply engine

Shallow embedding of `src/x11rb-async/src/rust_connection/mod.rs`:

* the write pipeline (`WriteBufferInner`, `flush_impl`, `write_all_vectored`,
  the corruption-flag lock protocol of `WriteBuffer::lock` / `WriteBufferGuard::unlock`),
* the request dispatcher (`send_request`, `send_sync`),
* the big-request encoder (`compute_length_field`),
* the maximum-request-size negotiation (`MaxRequestBytes`, `prefetch_len_impl`,
  `maximum_request_bytes`),
* the reply/error classification of `wait_for_reply_with_fds_impl`,
* the resource-id allocation flow of `generate_id`.

Bytes are modelled as `Nat` (the source only moves them around), the
non-blocking stream as a script: a list of `(n, takeFds)` pairs meaning "the
next `write`/`write_vectored` call accepts `n` bytes and does (not) consume the
pending file descriptors".  `write_with`'s would-block retry loop is invisible
at this level (a would-block simply re-runs the closure with its captured state
intact), so scripts only contain completed write outcomes.  A scripted `n = 0`
is the `WriteZero` error of the source.  Rust panics (`assert!`, `expect`,
out-of-bounds indexing) are modelled as explicit `panicked` outcomes, distinct
from returned errors.
-/

set_option autoImplicit false

namespace X11rb

/-- One scripted outcome of a stream write call: the stream accepts `n` bytes
(capped by how many were offered) and consumes the pending descriptors iff the
flag is set. -/
abbrev StreamScript := List (Nat × Bool)

/-- `WriteBufferInner` from the source: the outgoing byte buffer, the pending
file descriptors, and the corruption flag. -/
structure WriteBufferInner where
  buffer : List Nat
  fds : List Nat
  corrupted : Bool
deriving DecidableEq, Repr

/-- I/O-level failures of the write pipeline: `writeZero` is
`io::ErrorKind::WriteZero` (the stream accepted zero bytes), `fdsNotConsumed`
is the "failed to write all fds" error of `flush_impl`. -/
inductive FlushError where
  | writeZero
  | fdsNotConsumed
deriving DecidableEq, Repr

/-- The `while position < buffer.len()` loop of `flush_impl`: write the byte
buffer to the stream, chunk by scripted chunk.  Returns the remaining script,
the file descriptors still pending, and the trace of byte chunks that reached
the stream.  An exhausted script behaves like a stream that accepts nothing
(`WriteZero`). -/
def streamWriteLoop : StreamScript → List Nat → List Nat →
    Except FlushError (StreamScript × List Nat × List (List Nat))
  | script, bytes, fds =>
    if bytes.isEmpty then .ok (script, fds, [])
    else
      match script with
      | [] => .error .writeZero
      | (n, t) :: rest =>
        let k := min n bytes.length
        if k = 0 then .error .writeZero
        else
          match streamWriteLoop rest (bytes.drop k) (if t then [] else fds) with
          | .error e => .error e
          | .ok (s', f', w) => .ok (s', f', bytes.take k :: w)

/-- `RustConnection::flush_impl`: no-op when the buffer holds no bytes and no
descriptors; otherwise drain the byte buffer through the stream, then fail with
an I/O error if descriptors are still pending, and clear the buffer on
success. -/
def flushImpl (script : StreamScript) (st : WriteBufferInner) :
    Except FlushError (WriteBufferInner × StreamScript × List (List Nat)) :=
  if st.buffer = [] ∧ st.fds = [] then .ok (st, script, [])
  else
    match streamWriteLoop script st.buffer st.fds with
    | .error e => .error e
    | .ok (s', f', w) =>
      if f' = [] then .ok (⟨[], [], st.corrupted⟩, s', w)
      else .error .fdsNotConsumed

/-- The inner `while n > 0` loop of `write_all_vectored`: consume `n` bytes
worth of whole slices, leaving the remainder of a partly-consumed slice. -/
def consumeBufs : Nat → List (List Nat) → List (List Nat) × List Nat
  | 0, bufs => (bufs, [])
  | _ + 1, [] => ([], [])
  | n + 1, b :: rest =>
    if b.length ≤ n + 1 then consumeBufs (n + 1 - b.length) rest
    else (rest, b.drop (n + 1))

/-- The direct-write phase of `RustConnection::write_all_vectored`, transcribed
with the loop guard exactly as in the source:
`while total_len > 0 && !partial.is_empty()`, with the leftover slice starting
out empty.  Returns the remaining script, the leftover descriptors, and the
trace of byte chunks written to the stream. -/
def directWrite : StreamScript → Nat → List Nat → List (List Nat) → List Nat →
    Except FlushError (StreamScript × List Nat × List (List Nat))
  | script, totalLen, leftover, bufs, fds =>
    if 0 < totalLen ∧ leftover ≠ [] then
      match script with
      | [] => .error .writeZero
      | (n, t) :: rest =>
        if leftover ≠ [] then
          -- stream.write(partial, fds)
          let k := min n leftover.length
          if k = 0 then .error .writeZero
          else
            match directWrite rest (totalLen - k) (leftover.drop k) bufs
                (if t then [] else fds) with
            | .error e => .error e
            | .ok (s', f', w) => .ok (s', f', leftover.take k :: w)
        else
          -- stream.write_vectored(bufs, fds)
          let k := min n (bufs.map List.length).sum
          if k = 0 then .error .writeZero
          else
            let c := consumeBufs k bufs
            match directWrite rest (totalLen - k) c.2 c.1 (if t then [] else fds) with
            | .error e => .error e
            | .ok (s', f', w) => .ok (s', f', bufs.flatten.take k :: w)
    else .ok (script, fds, [])

/-- `RustConnection::write_all_vectored`: flush first when the pending bytes
plus the new payload exceed the capacity; buffer the payload when it alone
fits; otherwise take the direct-write path.  The buffer capacity is a
parameter (the source reads the current `Vec` capacity, initially 16384). -/
def writeAllVectored (cap : Nat) (script : StreamScript) (st : WriteBufferInner)
    (bufs : List (List Nat)) (fds : List Nat) :
    Except FlushError (WriteBufferInner × StreamScript × List (List Nat)) :=
  let totalLen := (bufs.map List.length).sum
  let step1 :=
    if cap < st.buffer.length + totalLen then flushImpl script st
    else .ok (st, script, ([] : List (List Nat)))
  match step1 with
  | .error e => .error e
  | .ok (st1, script1, w1) =>
    if totalLen < cap then
      .ok ({ st1 with buffer := st1.buffer ++ bufs.flatten, fds := st1.fds ++ fds },
        script1, w1)
    else
      match directWrite script1 totalLen [] bufs fds with
      | .error e => .error e
      | .ok (script2, _fdsLeft, w2) => .ok (st1, script2, w1 ++ w2)

/-! ## The big-request encoder (`compute_length_field`) -/

/-- `u16::from_ne_bytes` on a little-endian machine. -/
def u16fromNe (b0 b1 : Nat) : Nat := b0 + 256 * b1

/-- `u32::to_ne_bytes` on a little-endian machine. -/
def u32toNe (n : Nat) : List Nat :=
  [n % 256, n / 256 % 256, n / 65536 % 256, n / 16777216 % 256]

/-- `u32::from_ne_bytes` on a little-endian machine, over a 4-byte list. -/
def u32fromNe (b0 b1 b2 b3 : Nat) : Nat :=
  b0 + 256 * b1 + 65536 * b2 + 16777216 * b3

/-- Outcome of `compute_length_field`: the (possibly rewritten) slice list, the
`MaximumRequestLengthExceeded` connection error, or a Rust panic (`assert!`
failure, out-of-bounds indexing, or the `expect` on the `u32` conversion). -/
inductive CLFResult where
  | ok (slices : List (List Nat))
  | maxExceeded
  | panicked
deriving DecidableEq, Repr

/-- `compute_length_field`, with the negotiated maximum request size
(`conn.maximum_request_bytes()`) passed as the `maxBytes` parameter. -/
def computeLengthField (maxBytes : Nat) (bufs : List (List Nat)) : CLFResult :=
  let length := (bufs.map List.length).sum
  if length % 4 ≠ 0 then .panicked   -- assert_eq!(length % 4, 0, ...)
  else
    let wireLength := length / 4
    match bufs with
    | [] => .panicked                -- request_buffers[0] on an empty slice list
    | firstBuf :: rest =>
      if firstBuf.length < 4 then .panicked   -- first_buf[2], first_buf[3], first_buf[4..]
      else if wireLength ≤ 65535 then
        -- u16::try_from(wire_length) succeeded: check the embedded length field
        if wireLength = u16fromNe (firstBuf.getD 2 0) (firstBuf.getD 3 0) then
          .ok (firstBuf :: rest)
        else .panicked               -- assert_eq!(wire_length, length_field, ...)
      else if maxBytes < length then .maxExceeded
      else if 4294967295 < wireLength + 1 then
        .panicked                    -- try_into::<u32>().expect("X11 request larger than 2^34 bytes?!?")
      else
        .ok ((firstBuf.take 2 ++ [0, 0] ++ u32toNe (wireLength + 1))
          :: firstBuf.drop 4 :: rest)

/-- The payload of a request as handed to the encoder: opcode byte, reserved
byte, and everything past the 16-bit length field. -/
def requestPayload (bufs : List (List Nat)) : List Nat :=
  match bufs with
  | [] => []
  | first :: rest => first.take 2 ++ first.drop 4 ++ rest.flatten

/-- Decoder for the big-request framing: accepts a byte stream whose 16-bit
length field is zero (the big-request marker) followed by the 32-bit extended
length, and recovers the payload together with the request's word count
(extended length minus the one word occupied by the extension itself). -/
def decodeBigRequest (bytes : List Nat) : Option (List Nat × Nat) :=
  match bytes with
  | b0 :: b1 :: 0 :: 0 :: l0 :: l1 :: l2 :: l3 :: body =>
    some (b0 :: b1 :: body, u32fromNe l0 l1 l2 l3 - 1)
  | _ => none

/-! ## Maximum-request-size negotiation (`MaxRequestBytes`) -/

/-- The tri-state maximum-request-size record. -/
inductive MaxRequestBytes where
  | unknown
  | known (n : Nat)
  | requested (cookie : Option Nat)
deriving DecidableEq, Repr

/-- `usize::MAX` on a 64-bit target. -/
def USIZE_MAX : Nat := 18446744073709551615

/-- `x.try_into().ok().and_then(|x: usize| x.checked_mul(4)).unwrap_or(usize::MAX)`:
convert a request length in 4-byte words to bytes, saturating on overflow. -/
def wordsToBytesSat (w : Nat) : Nat :=
  if w * 4 ≤ USIZE_MAX then w * 4 else USIZE_MAX

/-- `RustConnection::prefetch_len_impl`: when the state is `Unknown`, dispatch
the big-request enable request and move to `Requested`; `ext` is the cookie's
sequence number, or `none` when `bigreq::enable` failed (extension absent).
Any other state is left untouched. -/
def prefetchLenImpl (ext : Option Nat) (s : MaxRequestBytes) : MaxRequestBytes :=
  match s with
  | .unknown => .requested ext
  | s => s

/-- `RequestConnection::maximum_request_bytes` for `RustConnection`, returning
the byte count, the state left behind, and whether a reply round trip was
awaited.  `setupMax` is `setup.maximum_request_length` (a `u16`), `replyMax`
the big-request reply's `maximum_request_length` (a `u32`). -/
def maximumRequestBytes (setupMax replyMax : Nat) (ext : Option Nat)
    (s : MaxRequestBytes) : Nat × MaxRequestBytes × Bool :=
  match prefetchLenImpl ext s with
  | .known len => (len, .known len, false)
  | .unknown => (0, .unknown, false)   -- unreachable!("We are in the Some branch")
  | .requested none =>
    -- `None => return setup.maximum_request_length ... unwrap_or(usize::MAX)`:
    -- the early return skips the `*mrl = Known(..)` assignment.
    (wordsToBytesSat setupMax, .requested none, false)
  | .requested (some _) =>
    (wordsToBytesSat replyMax, .known (wordsToBytesSat replyMax), true)

/-- Rank of a `MaxRequestBytes` state along the one-directional
`Unknown → Requested → Known` progression. -/
def mrbRank : MaxRequestBytes → Nat
  | .unknown => 0
  | .requested _ => 1
  | .known _ => 2

/-! ## The write-buffer lock protocol (`WriteBuffer::lock` / `unlock`) -/

/-- Abstract state of the `WriteBuffer` mutex-plus-corruption-flag: whether the
corruption flag is set and whether a guard is currently held. -/
structure WBLockState where
  corrupted : Bool
  held : Bool
deriving DecidableEq, Repr

/-- Operations on the write-buffer lock: `acquire` is `WriteBuffer::lock`,
`unlock` is `WriteBufferGuard::unlock` (the explicit clean release), `abandon`
is dropping the guard without unlocking (a future not polled to completion). -/
inductive WBOp where
  | acquire
  | unlock
  | abandon
deriving DecidableEq, Repr

/-- One step of the lock protocol.  The second component reports an acquire's
outcome: `some true` = acquired, `some false` = failed with the corruption
error, `none` = not an (observable) acquisition.  `lock` performs
`mem::replace(&mut lock.corrupted, true)` and errors when the old value was
`true`; an acquire while the guard is held blocks on the mutex, so it produces
no outcome.  `unlock` clears the flag; `abandon` releases the mutex only. -/
def wbStep (s : WBLockState) : WBOp → WBLockState × Option Bool
  | .acquire =>
    if s.held then (s, none)
    else if s.corrupted then ({ s with corrupted := true }, some false)
    else (⟨true, true⟩, some true)
  | .unlock => if s.held then (⟨false, false⟩, none) else (s, none)
  | .abandon => if s.held then ({ s with held := false }, none) else (s, none)

/-- Run a sequence of lock operations, collecting acquire outcomes. -/
def wbRun (s : WBLockState) : List WBOp → WBLockState × List Bool
  | [] => (s, [])
  | op :: ops =>
    let (s', out) := wbStep s op
    let (s'', outs) := wbRun s' ops
    (s'', match out with | some b => b :: outs | none => outs)

/-! ## Reply/error classification (`wait_for_reply_with_fds_impl`) -/

/-- `ReplyOrError` from `x11rb::connection`. -/
inductive ReplyOrError (B E : Type) where
  | reply (b : B)
  | error (e : E)
deriving DecidableEq, Repr

/-- Outcome of one poll in the correlator: keep waiting, deliver a result to
the caller, or hit a Rust panic. -/
inductive PollOutcome where
  | tryAgain
  | delivered (r : ReplyOrError (List Nat × List Nat) (List Nat))
  | panicked
deriving DecidableEq, Repr

/-- The `get_reply` closure in `wait_for_reply_with_fds_impl`, applied to the
result of `poll_for_reply_or_error(sequence)`:  `none` from the poll means
"try again"; a response buffer is delivered as an error when its first byte is
0 and as a reply otherwise; an empty buffer panics on the `reply.0[0]`
index. -/
def getReply (poll : Option (List Nat × List Nat)) : PollOutcome :=
  match poll with
  | none => .tryAgain
  | some (buf, fds) =>
    match buf with
    | [] => .panicked
    | b0 :: restBuf =>
      if b0 = 0 then .delivered (.error (b0 :: restBuf))
      else .delivered (.reply (b0 :: restBuf, fds))

/-! ## The request dispatcher (`send_request`, `send_sync`) -/

/-- `xproto::GET_INPUT_FOCUS_REQUEST`. -/
def GET_INPUT_FOCUS_REQUEST : Nat := 43

/-- The synchronizing request built by `send_sync`: opcode, reserved byte, and
`1u16.to_ne_bytes()` as the length field. -/
def syncRequest : List Nat := [GET_INPUT_FOCUS_REQUEST, 0, 1, 0]

/-- Outcome of `send_sync`: the `expect("This request should not be blocked by
syncs")` panic when the protocol core refuses a sequence number, or the result
of writing the packet through `write_all_vectored`. -/
inductive SyncResult where
  | panicked
  | completed (r : Except FlushError (WriteBufferInner × StreamScript × List (List Nat)))
deriving Repr

/-- `RustConnection::send_sync`: obtain a sequence number for a
`ReplyWithoutFDs` `GetInputFocus` request (panicking on refusal), discard its
reply, and write the 4-byte packet.  `answer` is the protocol core's response
to `send_request(ReplyFdKind::ReplyWithoutFDs)`. -/
def sendSync (answer : Option Nat) (cap : Nat) (script : StreamScript)
    (st : WriteBufferInner) : SyncResult :=
  match answer with
  | none => .panicked
  | some _ => .completed (writeAllVectored cap script st [syncRequest] [])

/-- What a `send_request` run produced: the sequence number returned to the
caller, the final write-buffer state (after `unlock`), the remaining stream
script, the trace of chunks written directly to the stream, and how many
synchronizing requests were sent along the way. -/
structure SendOutcome where
  seq : Nat
  st : WriteBufferInner
  script : StreamScript
  streamWrites : List (List Nat)
  syncs : Nat
deriving DecidableEq, Repr

/-- Result of `send_request`: success, a surfaced `ConnectionError` (I/O or
`MaximumRequestLengthExceeded` or the corrupted-buffer error), a Rust panic,
or an exhausted oracle for the protocol core's answers (the retry loop is
unbounded in the source; the answer list doubles as fuel). -/
inductive SendResult where
  | ok (o : SendOutcome)
  | ioError (e : FlushError)
  | maxExceeded
  | corrupted
  | panicked
  | outOfAnswers
deriving DecidableEq, Repr

/-- The `loop` of `send_request`: pop the protocol core's answer for the
original request; on a grant, write the request and unlock; on refusal, run
`send_sync` (consuming the core's answer for the synchronizing request) and
retry. -/
def sendRequestLoop (cap : Nat) : List (Option Nat) → StreamScript →
    WriteBufferInner → List (List Nat) → List Nat → Nat → List (List Nat) →
    SendResult
  | [], _, _, _, _, _, _ => .outOfAnswers
  | some seq :: _, script, st, bufs, fds, syncs, trace =>
    match writeAllVectored cap script st bufs fds with
    | .error e => .ioError e
    | .ok (st', script', w) =>
      -- buffer.unlock(); return Ok(seq)
      .ok ⟨seq, { st' with corrupted := false }, script', trace ++ w, syncs⟩
  | none :: rest, script, st, bufs, fds, syncs, trace =>
    match rest with
    | [] => .outOfAnswers
    | syncAnswer :: rest' =>
      match sendSync syncAnswer cap script st with
      | .panicked => .panicked
      | .completed (.error e) => .ioError e
      | .completed (.ok (st', script', w)) =>
        sendRequestLoop cap rest' script' st' bufs fds (syncs + 1) (trace ++ w)

/-- `RustConnection::send_request`: run `compute_length_field`, acquire the
write buffer (failing if it is corrupted, and holding it — flag set — for the
duration), then the grant/retry loop.  `answers` scripts the protocol core's
`send_request` responses in the order they are consumed. -/
def sendRequest (cap maxBytes : Nat) (answers : List (Option Nat))
    (script : StreamScript) (st : WriteBufferInner) (bufs : List (List Nat))
    (fds : List Nat) : SendResult :=
  match computeLengthField maxBytes bufs with
  | .panicked => .panicked
  | .maxExceeded => .maxExceeded
  | .ok bufs' =>
    if st.corrupted then .corrupted
    else sendRequestLoop cap answers script { st with corrupted := true } bufs' fds 0 []

/-! ## Resource-id allocation (`Connection::generate_id`) -/

/-- `ReplyOrIdError`, restricted to the variants `generate_id` produces:
`idsExhausted` and the connection-level errors propagated by `?` (from the
extension query, the xid-range round trip, or `update_xid_range`). -/
inductive GenIdError where
  | idsExhausted
  | connectionError
deriving DecidableEq, Repr

/-- `Connection::generate_id`.  The `IdAllocator` lives outside this file
(`x11rb_protocol::id_allocator`), so its two `generate_id` calls are scripted:
`firstTry` is the allocator's answer before, `secondTry` after
`update_xid_range` fed it the new base/mask.  `extPresent` is whether the
XC-MISC extension information resolved to `Some`, and `updateOk` whether the
xid-range round trip plus `update_xid_range` succeeded.  The second component
counts the `get_xid_range` requests issued. -/
def generateId (extPresent : Bool) (firstTry : Option Nat) (updateOk : Bool)
    (secondTry : Option Nat) : Except GenIdError Nat × Nat :=
  match firstTry with
  | some id => (.ok id, 0)
  | none =>
    if extPresent then
      if updateOk then
        match secondTry with
        | some id => (.ok id, 1)
        | none => (.error .idsExhausted, 1)
      else (.error .connectionError, 1)
    else (.error .idsExhausted, 0)

/-! ## Helper lemmas -/

/-- From a corrupted, unheld lock state, every operation leaves the state
corrupted and unheld, and every acquisition fails. -/
theorem wbRun_broken (ops : List WBOp) :
    ∀ s : WBLockState, s.corrupted = true → s.held = false →
      (wbRun s ops).1 = s ∧ ((wbRun s ops).2.all (fun b => b = false)) = true := by
  induction ops with
  | nil => intro s _ _; exact ⟨rfl, rfl⟩
  | cons op ops ih =>
    intro s hc hh
    obtain ⟨c, h⟩ := s
    cases hc; cases hh
    cases op with
    | acquire =>
      have := ih ⟨true, false⟩ rfl rfl
      simpa [wbRun, wbStep] using this
    | unlock =>
      have := ih ⟨true, false⟩ rfl rfl
      simpa [wbRun, wbStep] using this
    | abandon =>
      have := ih ⟨true, false⟩ rfl rfl
      simpa [wbRun, wbStep] using this

/-- A successful `streamWriteLoop` writes exactly the byte buffer to the
stream. -/
theorem streamWriteLoop_ok_flatten (script : StreamScript) :
    ∀ bytes fds s' f' w, streamWriteLoop script bytes fds = .ok (s', f', w) →
      w.flatten = bytes := by
  induction script with
  | nil =>
    intro bytes fds s' f' w h
    rw [streamWriteLoop] at h
    by_cases hb : bytes.isEmpty
    · rw [if_pos hb] at h
      cases h
      simpa using (List.isEmpty_iff.mp hb).symm
    · rw [if_neg hb] at h
      cases h
  | cons hd tl ih =>
    intro bytes fds s' f' w h
    rw [streamWriteLoop] at h
    by_cases hb : bytes.isEmpty
    · rw [if_pos hb] at h
      cases h
      simpa using (List.isEmpty_iff.mp hb).symm
    · rw [if_neg hb] at h
      obtain ⟨n, t⟩ := hd
      simp only at h
      by_cases hk : min n bytes.length = 0
      · rw [if_pos hk] at h; cases h
      · rw [if_neg hk] at h
        rcases hrec : streamWriteLoop tl (bytes.drop (min n bytes.length))
            (if t then [] else fds) with e | ⟨s'', f'', w''⟩
        · rw [hrec] at h; cases h
        · rw [hrec] at h
          cases h
          have := ih _ _ _ _ _ hrec
          simp [this]

/-! ## Claim theorems -/

/-- Claim C4: acquiring the write buffer twice without an intervening release
(the first acquisition abandoned, i.e. its guard dropped without `unlock`)
fails the second acquisition with the corruption error, and from then on every
acquisition fails no matter what operations follow; a successful acquire marks
the buffer tentatively corrupted, and only an explicit `unlock` clears the
flag (abandoning the guard leaves it set). -/
theorem wb_lock_corruption_sticky :
    (wbRun ⟨false, false⟩ [.acquire, .abandon, .acquire]).2 = [true, false] ∧
    (∀ ops : List WBOp, ((wbRun ⟨true, false⟩ ops).2.all (fun b => b = false)) = true) ∧
    wbStep ⟨false, false⟩ .acquire = (⟨true, true⟩, some true) ∧
    wbStep ⟨true, true⟩ .unlock = (⟨false, false⟩, none) ∧
    wbStep ⟨true, true⟩ .abandon = (⟨true, false⟩, none) :=
  ⟨rfl, fun ops => (wbRun_broken ops ⟨true, false⟩ rfl rfl).2, rfl, rfl, rfl⟩

/-- Claim C8: `generate_id` returns the next identifier from the current range
when one is available (no extension round trip); on exhaustion with the
XC-MISC extension absent it fails with `IdsExhausted` without issuing a range
request; with the extension present it issues exactly one `get_xid_range`
request, retries allocation exactly once, and fails with `IdsExhausted` if
that retry is still exhausted. -/
theorem generateId_spec :
    (∀ (ext : Bool) (id : Nat) (u : Bool) (s : Option Nat),
      generateId ext (some id) u s = (.ok id, 0)) ∧
    (∀ (u : Bool) (s : Option Nat),
      generateId false none u s = (.error .idsExhausted, 0)) ∧
    (∀ id : Nat, generateId true none true (some id) = (.ok id, 1)) ∧
    generateId true none true none = (.error .idsExhausted, 1) :=
  ⟨fun _ _ _ _ => rfl, fun _ _ => rfl, fun _ => rfl, rfl⟩

/-- Claim C9: a response buffer obtained from the protocol core is delivered
to the caller as an error exactly when its first byte is 0, and as a reply
exactly when its first byte is nonzero. -/
theorem getReply_error_iff_first_byte_zero :
    ∀ (b0 : Nat) (restBuf fds : List Nat),
      (getReply (some (b0 :: restBuf, fds)) = .delivered (.error (b0 :: restBuf)) ↔
        b0 = 0) ∧
      (getReply (some (b0 :: restBuf, fds)) = .delivered (.reply (b0 :: restBuf, fds)) ↔
        b0 ≠ 0) := by
  intro b0 restBuf fds
  by_cases h : b0 = 0 <;> simp [getReply, h]

/-- Claim C10: `send_sync` treats a refused sequence number as unreachable:
when the protocol core grants one, the sync request is written (total, no
panic); when the core refuses, the `expect` fires — a panic, not a returned
error and not a retry. -/
theorem sendSync_grant_total_refusal_panics :
    (∀ (seq cap : Nat) (script : StreamScript) (st : WriteBufferInner),
      sendSync (some seq) cap script st =
        .completed (writeAllVectored cap script st [syncRequest] []) ∧
      sendSync (some seq) cap script st ≠ .panicked) ∧
    (∀ (cap : Nat) (script : StreamScript) (st : WriteBufferInner),
      sendSync none cap script st = .panicked) := by
  refine ⟨fun seq cap script st => ⟨rfl, ?_⟩, fun _ _ _ => rfl⟩
  simp [sendSync]

/-- Claim C2, counterexample: resolving the maximum with the big-request
extension absent (state `Requested(None)`) does **not** transition the state
to `Known(fallback)`: with `setup.maximum_request_length = 100` the call
returns the fallback 400 bytes but leaves the state at `Requested(None)`. -/
theorem maximumRequestBytes_requestedNone_stays :
    (maximumRequestBytes 100 0 none (.requested none)).2.1 = .requested none ∧
    (maximumRequestBytes 100 0 none (.requested none)).2.1 ≠
      .known (wordsToBytesSat 100) ∧
    (maximumRequestBytes 100 0 none (.requested none)).1 = 400 := by
  refine ⟨rfl, ?_, by decide⟩
  intro h
  rw [show (maximumRequestBytes 100 0 none (.requested none)).2.1 =
    .requested none from rfl] at h
  cases h

/-- Claim C2, amended: the `MaxRequestBytes` state moves one-directionally
`Unknown → Requested → Known` and never regresses; once `Known(n)`, every
future `maximum_request_bytes` call returns `n` with no round trip; when the
extension is absent (`Requested(None)`), every call returns the Setup-derived
fallback (words → bytes, saturating) with no round trip but leaves the state
at `Requested(None)` instead of transitioning to `Known(fallback)`; the state
reaches `Known` only through an extension reply (`reply.max_len * 4`,
saturating). -/
theorem maxRequestBytes_state_machine :
    (∀ (sm rm n : Nat) (ext : Option Nat),
      maximumRequestBytes sm rm ext (.known n) = (n, .known n, false)) ∧
    (∀ (sm rm : Nat) (ext : Option Nat),
      maximumRequestBytes sm rm ext (.requested none) =
        (wordsToBytesSat sm, .requested none, false)) ∧
    (∀ (sm rm c : Nat) (ext : Option Nat),
      maximumRequestBytes sm rm ext (.requested (some c)) =
        (wordsToBytesSat rm, .known (wordsToBytesSat rm), true)) ∧
    (∀ (ext : Option Nat) (s : MaxRequestBytes),
      mrbRank s ≤ mrbRank (prefetchLenImpl ext s)) ∧
    (∀ (sm rm : Nat) (ext : Option Nat) (s : MaxRequestBytes),
      mrbRank s ≤ mrbRank (maximumRequestBytes sm rm ext s).2.1) := by
  refine ⟨fun _ _ _ _ => rfl, fun _ _ _ => rfl, fun _ _ _ _ => rfl, ?_, ?_⟩
  · intro ext s
    cases s <;> simp [prefetchLenImpl, mrbRank]
  · intro sm rm ext s
    cases s with
    | unknown =>
      cases ext <;> simp [maximumRequestBytes, prefetchLenImpl, mrbRank]
    | known n => exact Nat.le_refl _
    | requested c =>
      cases c <;> simp [maximumRequestBytes, prefetchLenImpl, mrbRank]

/-- Claim C1: evaluation of `write_all_vectored` at a request whose payload
alone does not fit in the emptied buffer (capacity 4, four pending buffered
bytes, a fresh 4-byte payload, a stream willing to accept 100 bytes per call).
The pending bytes are flushed, but the function then returns `Ok` with **no**
byte of the new slices written to the stream: the direct-write loop guard
`total_len > 0 && !partial.is_empty()` is false on entry because `partial`
starts out empty. -/
theorem writeAllVectored_direct_path_writes_nothing :
    writeAllVectored 4 [(100, true), (100, true)] ⟨[9, 9, 9, 9], [], false⟩
        [[1, 2, 3, 4]] [] =
      .ok (⟨[], [], false⟩, [(100, true)], [[9, 9, 9, 9]]) := rfl

/-- Claim C6: `flush_impl` is a no-op (returns `Ok`, writes nothing, leaves the
state untouched) exactly when the buffer holds no bytes and no pending
descriptors; on success it has written exactly the buffered bytes (looping
through partial writes) and cleared buffer and descriptors; and once the byte
buffer has drained, it fails with an I/O error precisely when descriptors
remain unconsumed. -/
theorem flushImpl_spec (script : StreamScript) (st : WriteBufferInner) :
    (flushImpl script st = .ok (st, script, []) ↔ st.buffer = [] ∧ st.fds = []) ∧
    (∀ st' s' w, flushImpl script st = .ok (st', s', w) →
      w.flatten = st.buffer ∧ st'.buffer = [] ∧ st'.fds = []) ∧
    (∀ s' f' w, ¬(st.buffer = [] ∧ st.fds = []) →
      streamWriteLoop script st.buffer st.fds = .ok (s', f', w) →
      flushImpl script st =
        if f' = [] then .ok (⟨[], [], st.corrupted⟩, s', w)
        else .error .fdsNotConsumed) := by
  refine ⟨⟨?_, ?_⟩, ?_, ?_⟩
  · intro h
    by_contra hne
    rw [flushImpl, if_neg hne] at h
    rcases hloop : streamWriteLoop script st.buffer st.fds with e | ⟨s', f', w⟩
    · rw [hloop] at h; cases h
    · rw [hloop] at h
      dsimp only at h
      by_cases hf : f' = []
      · rw [if_pos hf] at h
        simp only [Except.ok.injEq, Prod.mk.injEq] at h
        exact hne ⟨by rw [← h.1], by rw [← h.1]⟩
      · rw [if_neg hf] at h; cases h
  · intro h
    rw [flushImpl, if_pos h]
  · intro st' s' w h
    by_cases hne : st.buffer = [] ∧ st.fds = []
    · rw [flushImpl, if_pos hne] at h
      simp only [Except.ok.injEq, Prod.mk.injEq] at h
      obtain ⟨hst, _, hw⟩ := h
      subst hst hw
      exact ⟨by simp [hne.1], hne.1, hne.2⟩
    · rw [flushImpl, if_neg hne] at h
      rcases hloop : streamWriteLoop script st.buffer st.fds with e | ⟨s'', f'', w''⟩
      · rw [hloop] at h; cases h
      · rw [hloop] at h
        dsimp only at h
        by_cases hf : f'' = []
        · rw [if_pos hf] at h
          simp only [Except.ok.injEq, Prod.mk.injEq] at h
          obtain ⟨hst, _, hw⟩ := h
          subst hw
          refine ⟨streamWriteLoop_ok_flatten script _ _ _ _ _ hloop, ?_, ?_⟩
          · rw [← hst]
          · rw [← hst]
        · rw [if_neg hf] at h; cases h
  · intro s' f' w hne hloop
    rw [flushImpl, if_neg hne, hloop]

/-- Witness for the claim C6 theorem, at buffer `[1, 2, 3]` with one pending
descriptor and a stream that accepts 2 then 10 bytes, consuming the
descriptor on the first write. -/
theorem flushImpl_spec_witness :
    ¬(([1, 2, 3] : List Nat) = [] ∧ ([5] : List Nat) = []) ∧
    streamWriteLoop [(2, true), (10, false)] [1, 2, 3] [5] =
      .ok ([], [], [[1, 2], [3]]) ∧
    flushImpl [(2, true), (10, false)] ⟨[1, 2, 3], [5], false⟩ =
      .ok (⟨[], [], false⟩, [], [[1, 2], [3]]) := by
  refine ⟨by simp, rfl, ?_⟩
  have h := (flushImpl_spec [(2, true), (10, false)] ⟨[1, 2, 3], [5], false⟩).2.2
    [] [] [[1, 2], [3]] (by simp) rfl
  simpa using h

/-- Claim C5: a refused sequence number (`None` from the protocol core) makes
`send_request` send one synchronizing request and retry — it never surfaces as
an error to the caller; concretely, with the core answering
`[None, Some 7, Some 8]` the dispatch succeeds with sequence number 8 after
exactly one synchronizing request, whose bytes land in the write pipeline
before the original request's bytes. -/
theorem sendRequest_backpressure_sync_retry :
    (∀ (cap s : Nat) (rest : List (Option Nat)) (script : StreamScript)
        (st : WriteBufferInner) (bufs : List (List Nat)) (fds : List Nat)
        (syncs : Nat) (trace : List (List Nat)),
      st.buffer.length + 4 ≤ cap → 4 < cap →
      sendRequestLoop cap (none :: some s :: rest) script st bufs fds syncs trace =
        sendRequestLoop cap rest script
          ⟨st.buffer ++ syncRequest, st.fds, st.corrupted⟩ bufs fds (syncs + 1) trace) ∧
    sendRequest 16384 65536 [none, some 7, some 8] [] ⟨[], [], false⟩
        [[20, 0, 1, 0]] [] =
      .ok ⟨8, ⟨syncRequest ++ [20, 0, 1, 0], [], false⟩, [], [], 1⟩ := by
  constructor
  · intro cap s rest script st bufs fds syncs trace hroom hcap
    have hlen : (([syncRequest] : List (List Nat)).map List.length).sum = 4 := rfl
    simp only [sendRequestLoop, sendSync, writeAllVectored, hlen,
      if_neg (show ¬ cap < st.buffer.length + 4 by omega),
      if_pos (show 4 < cap from hcap)]
    simp [syncRequest]
  · rfl

/-- Witness for the claim C5 theorem: the refusal-then-sync step at capacity
16384 with one byte already buffered. -/
theorem sendRequest_backpressure_sync_retry_witness :
    (([5] : List Nat).length + 4 ≤ 16384 ∧ (4 : Nat) < 16384) ∧
    sendRequestLoop 16384 [none, some 3] [] ⟨[5], [], true⟩ [[20, 0, 1, 0]] [] 0 [] =
      sendRequestLoop 16384 [] [] ⟨[5] ++ syncRequest, [], true⟩
        [[20, 0, 1, 0]] [] 1 [] := by
  refine ⟨⟨by norm_num, by norm_num⟩, ?_⟩
  exact sendRequest_backpressure_sync_retry.1 16384 3 [] [] ⟨[5], [], true⟩
    [[20, 0, 1, 0]] [] 0 [] (by norm_num) (by norm_num)

/-- Reassembling a `u32` from its native-endian bytes recovers the value. -/
theorem u32fromNe_u32toNe (n : Nat) (h : n ≤ 4294967295) :
    u32fromNe (n % 256) (n / 256 % 256) (n / 65536 % 256) (n / 16777216 % 256) = n := by
  unfold u32fromNe
  omega

/-- Claim C3: for a request whose word count exceeds 65535 but whose byte
length is within the negotiated maximum (and whose extended word count fits a
`u32`), `compute_length_field` produces exactly the slice sequence
`[opcode, reserved, 0, 0, extended length = word count + 1]`,
`[bytes 4.. of the first slice]`, `[the remaining slices]`, and decoding the
concatenation of that output recovers the original request payload and word
count. -/
theorem computeLengthField_bigRequest (maxBytes : Nat) (firstBuf : List Nat)
    (rest : List (List Nat)) (hfb : 4 ≤ firstBuf.length)
    (hmod : ((firstBuf :: rest).map List.length).sum % 4 = 0)
    (hbig : 65535 < ((firstBuf :: rest).map List.length).sum / 4)
    (hmax : ((firstBuf :: rest).map List.length).sum ≤ maxBytes)
    (hfit : ((firstBuf :: rest).map List.length).sum / 4 + 1 ≤ 4294967295) :
    computeLengthField maxBytes (firstBuf :: rest) =
      .ok ((firstBuf.take 2 ++ [0, 0] ++
          u32toNe (((firstBuf :: rest).map List.length).sum / 4 + 1)) ::
        firstBuf.drop 4 :: rest) ∧
    decodeBigRequest
        (((firstBuf.take 2 ++ [0, 0] ++
            u32toNe (((firstBuf :: rest).map List.length).sum / 4 + 1)) ::
          firstBuf.drop 4 :: rest).flatten) =
      some (requestPayload (firstBuf :: rest),
        ((firstBuf :: rest).map List.length).sum / 4) := by
  constructor
  · simp only [computeLengthField]
    rw [if_neg (by simpa using hmod), if_neg (by omega), if_neg (by omega),
      if_neg (by omega), if_neg (by omega)]
  · rcases firstBuf with _ | ⟨b0, _ | ⟨b1, _ | ⟨b2, _ | ⟨b3, tl⟩⟩⟩⟩ <;>
      simp only [List.length_nil, List.length_cons] at hfb <;> try omega
    have hW := u32fromNe_u32toNe
      ((((b0 :: b1 :: b2 :: b3 :: tl) :: rest).map List.length).sum / 4 + 1) hfit
    simp only [List.take, List.drop, u32toNe, List.flatten_cons, List.cons_append,
      List.nil_append, List.append_assoc, decodeBigRequest, requestPayload]
    rw [hW]
    simp

/-- Witness for the claim C3 theorem: a 262144-byte (65536-word) request in a
single slice, against a 262144-byte negotiated maximum. -/
theorem computeLengthField_bigRequest_witness :
    (4 ≤ ((20 : Nat) :: 0 :: 0 :: 0 :: List.replicate 262140 7).length ∧
      65535 <
        ((((20 : Nat) :: 0 :: 0 :: 0 :: List.replicate 262140 7) ::
          ([] : List (List Nat))).map List.length).sum / 4) ∧
    computeLengthField 262144
        (((20 : Nat) :: 0 :: 0 :: 0 :: List.replicate 262140 7) :: []) =
      .ok ((((20 : Nat) :: 0 :: 0 :: 0 :: List.replicate 262140 7).take 2 ++ [0, 0] ++
          u32toNe (((((20 : Nat) :: 0 :: 0 :: 0 :: List.replicate 262140 7) ::
            ([] : List (List Nat))).map List.length).sum / 4 + 1)) ::
        ((20 : Nat) :: 0 :: 0 :: 0 :: List.replicate 262140 7).drop 4 :: []) ∧
    decodeBigRequest
        (((((20 : Nat) :: 0 :: 0 :: 0 :: List.replicate 262140 7).take 2 ++ [0, 0] ++
            u32toNe (((((20 : Nat) :: 0 :: 0 :: 0 :: List.replicate 262140 7) ::
              ([] : List (List Nat))).map List.length).sum / 4 + 1)) ::
          ((20 : Nat) :: 0 :: 0 :: 0 :: List.replicate 262140 7).drop 4 :: []).flatten) =
      some (requestPayload
          (((20 : Nat) :: 0 :: 0 :: 0 :: List.replicate 262140 7) :: []),
        ((((20 : Nat) :: 0 :: 0 :: 0 :: List.replicate 262140 7) ::
          ([] : List (List Nat))).map List.length).sum / 4) := by
  have hlen : ((((20 : Nat) :: 0 :: 0 :: 0 :: List.replicate 262140 7) ::
      ([] : List (List Nat))).map List.length).sum = 262144 := by
    rw [List.map_cons, List.map_nil, List.sum_cons, List.sum_nil,
      List.length_cons, List.length_cons, List.length_cons, List.length_cons,
      List.length_replicate]
    omega
  have hfb : 4 ≤ ((20 : Nat) :: 0 :: 0 :: 0 :: List.replicate 262140 7).length := by
    rw [List.length_cons, List.length_cons, List.length_cons, List.length_cons,
      List.length_replicate]
    omega
  have h := computeLengthField_bigRequest 262144
    ((20 : Nat) :: 0 :: 0 :: 0 :: List.replicate 262140 7) []
    hfb (by rw [hlen]) (by rw [hlen]; omega) (by rw [hlen])
    (by rw [hlen]; omega)
  exact ⟨⟨hfb, by rw [hlen]; omega⟩, h.1, h.2⟩

/-- Claim C7: for a request whose word count does not fit in 16 bits,
`compute_length_field` fails with `MaximumRequestLengthExceeded` if and only
if the byte length exceeds the negotiated maximum; for a request that does fit
in 16 bits that error is impossible, and when the embedded length field
matches the slices are returned unchanged. -/
theorem computeLengthField_max_error_iff (maxBytes : Nat) (firstBuf : List Nat)
    (rest : List (List Nat)) (hfb : 4 ≤ firstBuf.length)
    (hmod : ((firstBuf :: rest).map List.length).sum % 4 = 0) :
    (65535 < ((firstBuf :: rest).map List.length).sum / 4 →
      (computeLengthField maxBytes (firstBuf :: rest) = .maxExceeded ↔
        maxBytes < ((firstBuf :: rest).map List.length).sum)) ∧
    (((firstBuf :: rest).map List.length).sum / 4 ≤ 65535 →
      computeLengthField maxBytes (firstBuf :: rest) ≠ .maxExceeded ∧
      (((firstBuf :: rest).map List.length).sum / 4 =
          u16fromNe (firstBuf.getD 2 0) (firstBuf.getD 3 0) →
        computeLengthField maxBytes (firstBuf :: rest) = .ok (firstBuf :: rest))) := by
  have hC : computeLengthField maxBytes (firstBuf :: rest) =
      (if ((firstBuf :: rest).map List.length).sum / 4 ≤ 65535 then
        (if ((firstBuf :: rest).map List.length).sum / 4 =
            u16fromNe (firstBuf.getD 2 0) (firstBuf.getD 3 0) then
          .ok (firstBuf :: rest)
        else .panicked)
      else if maxBytes < ((firstBuf :: rest).map List.length).sum then .maxExceeded
      else if 4294967295 < ((firstBuf :: rest).map List.length).sum / 4 + 1 then
        .panicked
      else
        .ok ((firstBuf.take 2 ++ [0, 0] ++
            u32toNe (((firstBuf :: rest).map List.length).sum / 4 + 1)) ::
          firstBuf.drop 4 :: rest)) := by
    simp only [computeLengthField]
    rw [if_neg (by simpa using hmod), if_neg (by omega)]
  constructor
  · intro hbig
    rw [hC, if_neg (by omega)]
    constructor
    · intro h
      by_contra hmax
      rw [if_neg hmax] at h
      by_cases hov : 4294967295 < ((firstBuf :: rest).map List.length).sum / 4 + 1
      · rw [if_pos hov] at h; cases h
      · rw [if_neg hov] at h; cases h
    · intro h
      rw [if_pos h]
  · intro hsmall
    constructor
    · by_cases he : ((firstBuf :: rest).map List.length).sum / 4 =
          u16fromNe (firstBuf.getD 2 0) (firstBuf.getD 3 0)
      · rw [hC, if_pos hsmall, if_pos he]
        intro h; cases h
      · rw [hC, if_pos hsmall, if_neg he]
        intro h; cases h
    · intro hfield
      rw [hC, if_pos hsmall, if_pos hfield]

/-- Witness for the claim C7 theorem: the minimal one-word request
`[1, 0, 1, 0]` with a correct length field is returned unchanged and never
hits `MaximumRequestLengthExceeded`. -/
theorem computeLengthField_max_error_iff_witness :
    (4 ≤ ([1, 0, 1, 0] : List Nat).length ∧
      ((([1, 0, 1, 0] : List Nat) :: []).map List.length).sum % 4 = 0 ∧
      ((([1, 0, 1, 0] : List Nat) :: []).map List.length).sum / 4 ≤ 65535) ∧
    computeLengthField 0 [[1, 0, 1, 0]] ≠ .maxExceeded ∧
    computeLengthField 0 [[1, 0, 1, 0]] = .ok [[1, 0, 1, 0]] := by
  have h := (computeLengthField_max_error_iff 0 [1, 0, 1, 0] []
    (by norm_num) (by norm_num)).2 (by norm_num)
  exact ⟨⟨by norm_num, by norm_num, by norm_num⟩, h.1, h.2 (by norm_num [u16fromNe])⟩

end X11rb
